import Mathlib

/-!
Verification of the BoundedTape / TuringMachine tape primitive
(`src/turing_machine.py`).

The Python class `TuringMachine` holds `memory` (a Python list of ints,
created as `[0 for _ in range(0, tape_size)]`) and `index` (a Python int).
We embed the state as a structure over `List Int` and `Int`, and each
fallible operation as a function into `Except PyErr`.  Python list
indexing `xs[i]` is embedded faithfully, including the negative-index
wrap-around semantics and the `IndexError` raised out of range, since the
`value` property getter and setter use raw list indexing.
-/

/-- Errors the Python code can raise: `EndOfTapeException` (a subclass of
`IndexError`, carrying a message) from the move operations, and a plain
`IndexError` from raw list indexing. -/
inductive PyErr where
  | endOfTapeException (msg : String) : PyErr
  | indexError : PyErr
deriving DecidableEq, Repr

/-- State of the Python `TuringMachine` object: `memory` is the cell list,
`index` the head position (a Python int, so `Int`: nothing in the code
keeps it non-negative). -/
structure TuringMachine where
  memory : List Int
  index : Int
deriving DecidableEq, Repr

/-- `TuringMachine.__init__`: `self.memory = [0 for _ in range(0, tape_size)]`
and `self.index = initial_tape_index`.  `range(0, n)` has `n` elements for
`n ≥ 0`, so `tape_size : Nat` covers every non-negative size.  No
validation of either argument is performed. -/
def TuringMachine.init (tape_size : Nat) (initial_tape_index : Int) :
    TuringMachine :=
  { memory := List.replicate tape_size 0, index := initial_tape_index }

/-- `TuringMachine.__len__`: `return len(self.memory)`. -/
def TuringMachine.len (m : TuringMachine) : Nat :=
  m.memory.length

/-- `TuringMachine.move_left`: raise `EndOfTapeException` if `self.index == 0`,
otherwise `self.index -= 1`.  The raise happens before any mutation, so on
failure the object is unchanged; we model this by returning the error and
leaving the caller with the old state. -/
def TuringMachine.move_left (m : TuringMachine) : Except PyErr TuringMachine :=
  if m.index = 0 then
    Except.error (PyErr.endOfTapeException "Unable to move left, index is at 0")
  else
    Except.ok { m with index := m.index - 1 }

/-- `TuringMachine.move_right`: raise `EndOfTapeException` if
`self.index == len(self) - 1`, otherwise `self.index += 1`. -/
def TuringMachine.move_right (m : TuringMachine) : Except PyErr TuringMachine :=
  if m.index = (m.memory.length : Int) - 1 then
    Except.error
      (PyErr.endOfTapeException "Unable to move right, reached end of the tape")
  else
    Except.ok { m with index := m.index + 1 }

/-- Python list index resolution for a list of length `n`: an index `i` with
`0 ≤ i < n` is used as is, `-n ≤ i < 0` wraps to `i + n`, anything else is
an `IndexError`. -/
def pyIndex (n : Nat) (i : Int) : Option Nat :=
  if 0 ≤ i ∧ i < (n : Int) then some i.toNat
  else if -(n : Int) ≤ i ∧ i < 0 then some (i + n).toNat
  else none

/-- Python `xs[i]` on a list of ints. -/
def pyListGet (xs : List Int) (i : Int) : Except PyErr Int :=
  match pyIndex xs.length i with
  | some k => Except.ok (xs.getD k 0)
  | none => Except.error PyErr.indexError

/-- Python `xs[i] = v` on a list of ints, returning the updated list. -/
def pyListSet (xs : List Int) (i : Int) (v : Int) :
    Except PyErr (List Int) :=
  match pyIndex xs.length i with
  | some k => Except.ok (xs.set k v)
  | none => Except.error PyErr.indexError

/-- The `value` property getter: `return self.memory[self.index]`. -/
def TuringMachine.value (m : TuringMachine) : Except PyErr Int :=
  pyListGet m.memory m.index

/-- The `value` property setter: `self.memory[self.index] = value_to_set`. -/
def TuringMachine.setValue (m : TuringMachine) (value_to_set : Int) :
    Except PyErr TuringMachine :=
  match pyListSet m.memory m.index value_to_set with
  | Except.ok mem => Except.ok { m with memory := mem }
  | Except.error e => Except.error e

/-- Invariant I1 of the spec: the head is a valid index into the cells. -/
def TuringMachine.I1 (m : TuringMachine) : Prop :=
  0 ≤ m.index ∧ m.index < (m.memory.length : Int)

instance (m : TuringMachine) : Decidable m.I1 := by
  unfold TuringMachine.I1; infer_instance

/-- Invariants I1 and I2 together, relative to the length `L` fixed at
construction: the head is in bounds and the cell count is still `L`. -/
def TuringMachine.Inv (L : Nat) (m : TuringMachine) : Prop :=
  0 ≤ m.index ∧ m.index < (m.memory.length : Int) ∧ m.memory.length = L

/-- C1: `move_left` fails with `EndOfTape` when the head is at index 0, the
state (head included) being unchanged on failure; otherwise it decrements
the head by exactly 1 and leaves the cell contents untouched. -/
theorem move_left_spec (m : TuringMachine) :
    (m.index = 0 →
      m.move_left =
        Except.error
          (PyErr.endOfTapeException "Unable to move left, index is at 0")) ∧
    (m.index ≠ 0 →
      m.move_left = Except.ok ⟨m.memory, m.index - 1⟩) := by
  constructor
  · intro h
    simp [TuringMachine.move_left, h]
  · intro h
    simp [TuringMachine.move_left, h]

/-- Witness for C1 at concrete states: head 0 on a 4-cell tape fails, head 2
moves to 1 with the same memory. -/
theorem move_left_spec_witness :
    (TuringMachine.init 4 0).move_left =
      Except.error
        (PyErr.endOfTapeException "Unable to move left, index is at 0") ∧
    (TuringMachine.init 4 2).move_left =
      Except.ok ⟨List.replicate 4 0, 1⟩ := by
  constructor
  · exact (move_left_spec (TuringMachine.init 4 0)).1 rfl
  · exact (move_left_spec (TuringMachine.init 4 2)).2 (by decide)

/-- C2: `move_right` fails with `EndOfTape` when the head is at index
`length - 1`, the state being unchanged on failure; otherwise it increments
the head by exactly 1 and leaves the cell contents untouched. -/
theorem move_right_spec (m : TuringMachine) :
    (m.index = (m.memory.length : Int) - 1 →
      m.move_right =
        Except.error
          (PyErr.endOfTapeException
            "Unable to move right, reached end of the tape")) ∧
    (m.index ≠ (m.memory.length : Int) - 1 →
      m.move_right = Except.ok ⟨m.memory, m.index + 1⟩) := by
  constructor
  · intro h
    simp [TuringMachine.move_right, h]
  · intro h
    simp [TuringMachine.move_right, h]

/-- Witness for C2 at concrete states: head 3 on a 4-cell tape fails, head 1
moves to 2 with the same memory. -/
theorem move_right_spec_witness :
    (TuringMachine.init 4 3).move_right =
      Except.error
        (PyErr.endOfTapeException
          "Unable to move right, reached end of the tape") ∧
    (TuringMachine.init 4 1).move_right =
      Except.ok ⟨List.replicate 4 0, 2⟩ := by
  constructor
  · exact (move_right_spec (TuringMachine.init 4 3)).1 (by decide)
  · exact (move_right_spec (TuringMachine.init 4 1)).2 (by decide)

instance (L : Nat) (m : TuringMachine) : Decidable (m.Inv L) := by
  unfold TuringMachine.Inv; infer_instance

/-- Helper: under invariant I1 the `value` getter takes the in-range branch
of Python list indexing and returns the cell at the head. -/
theorem value_ok (m : TuringMachine) (h0 : 0 ≤ m.index)
    (hlt : m.index < (m.memory.length : Int)) :
    m.value = Except.ok (m.memory.getD m.index.toNat 0) := by
  unfold TuringMachine.value pyListGet pyIndex
  simp [h0, hlt]

/-- Helper: under invariant I1 the `value` setter takes the in-range branch
of Python list indexing and updates exactly the cell at the head. -/
theorem setValue_ok (m : TuringMachine) (v : Int) (h0 : 0 ≤ m.index)
    (hlt : m.index < (m.memory.length : Int)) :
    m.setValue v = Except.ok ⟨m.memory.set m.index.toNat v, m.index⟩ := by
  unfold TuringMachine.setValue pyListSet pyIndex
  simp [h0, hlt]

/-- C3: for `L ≥ 1` and `0 ≤ i < L`, construction allocates exactly `L`
cells, all zero, and immediately afterwards `len` returns `L` and the head
equals `i`. -/
theorem construct_spec (L : Nat) (i : Int) (hL : 1 ≤ L) (h0 : 0 ≤ i)
    (hi : i < (L : Int)) :
    (TuringMachine.init L i).memory.length = L ∧
    (∀ c ∈ (TuringMachine.init L i).memory, c = 0) ∧
    (TuringMachine.init L i).len = L ∧
    (TuringMachine.init L i).index = i := by
  have _ := hL
  have _ := h0
  have _ := hi
  refine ⟨?_, ?_, ?_, rfl⟩
  · simp [TuringMachine.init]
  · intro c hc
    exact List.eq_of_mem_replicate hc
  · simp [TuringMachine.init, TuringMachine.len]

/-- Witness for C3 at `L = 4`, `i = 1`. -/
theorem construct_spec_witness :
    (1 ≤ 4 ∧ (0 : Int) ≤ 1 ∧ (1 : Int) < ((4 : Nat) : Int)) ∧
    ((TuringMachine.init 4 1).memory.length = 4 ∧
     (∀ c ∈ (TuringMachine.init 4 1).memory, c = 0) ∧
     (TuringMachine.init 4 1).len = 4 ∧
     (TuringMachine.init 4 1).index = 1) :=
  ⟨⟨by decide, by decide, by decide⟩,
   construct_spec 4 1 (by decide) (by decide) (by decide)⟩

/-- C4: the invariant `0 ≤ head < length(cells) ∧ length(cells) = L` holds
after a valid construction of length `L`, and a state satisfying it is
carried to a state satisfying it by every successful operation (moves and
write; the read does not touch the state).  A failed operation raises
before any mutation, so the unchanged state still satisfies the
invariant. -/
theorem invariant_preserved (L : Nat) (i : Int) (m : TuringMachine)
    (hc : 0 ≤ i ∧ i < (L : Int)) (h : m.Inv L) :
    (TuringMachine.init L i).Inv L ∧
    (∀ m', m.move_left = Except.ok m' → m'.Inv L) ∧
    (∀ m', m.move_right = Except.ok m' → m'.Inv L) ∧
    (∀ v m', m.setValue v = Except.ok m' → m'.Inv L) := by
  obtain ⟨h0, hlt, hlen⟩ := h
  refine ⟨⟨hc.1, ?_, ?_⟩, ?_, ?_, ?_⟩
  · simpa [TuringMachine.init] using hc.2
  · simp [TuringMachine.init]
  · intro m' hm'
    unfold TuringMachine.move_left at hm'
    split at hm'
    · exact absurd hm' (by simp)
    · rename_i hne
      obtain rfl : { m with index := m.index - 1 } = m' := by
        simpa using hm'
      refine ⟨?_, ?_, hlen⟩
      · show (0 : Int) ≤ m.index - 1
        omega
      · show m.index - 1 < (m.memory.length : Int)
        omega
  · intro m' hm'
    unfold TuringMachine.move_right at hm'
    split at hm'
    · exact absurd hm' (by simp)
    · rename_i hne
      obtain rfl : { m with index := m.index + 1 } = m' := by
        simpa using hm'
      refine ⟨?_, ?_, hlen⟩
      · show (0 : Int) ≤ m.index + 1
        omega
      · show m.index + 1 < (m.memory.length : Int)
        omega
  · intro v m' hm'
    rw [setValue_ok m v h0 hlt] at hm'
    obtain rfl : (⟨m.memory.set m.index.toNat v, m.index⟩ : TuringMachine) = m' := by
      simpa using hm'
    refine ⟨h0, ?_, ?_⟩
    · show m.index < (((m.memory.set m.index.toNat v).length : Nat) : Int)
      simpa using hlt
    · simpa using hlen

/-- Witness for C4: the hypotheses hold at `L = 4`, `i = 1`, and the state
constructed with head 2, and the invariant holds right after the valid
construction. -/
theorem invariant_preserved_witness :
    (((0 : Int) ≤ 1 ∧ (1 : Int) < ((4 : Nat) : Int)) ∧
      (TuringMachine.init 4 2).Inv 4) ∧
    (TuringMachine.init 4 1).Inv 4 :=
  ⟨⟨⟨by decide, by decide⟩, by decide⟩,
   (invariant_preserved 4 1 (TuringMachine.init 4 2)
     ⟨by decide, by decide⟩ (by decide)).1⟩

/-- Helper: a successful left move keeps the memory and decrements the head. -/
theorem move_left_ok (m : TuringMachine) (h : m.index ≠ 0) :
    m.move_left = Except.ok ⟨m.memory, m.index - 1⟩ := by
  simp [TuringMachine.move_left, h]

/-- Helper: a successful right move keeps the memory and increments the head. -/
theorem move_right_ok (m : TuringMachine)
    (h : m.index ≠ (m.memory.length : Int) - 1) :
    m.move_right = Except.ok ⟨m.memory, m.index + 1⟩ := by
  simp [TuringMachine.move_right, h]

/-- C5: for a head position `h` with `0 < h < L - 1`, moving left then right
returns to the exact starting state, and moving right then left does too. -/
theorem roundtrip_spec (m : TuringMachine) (h1 : 0 < m.index)
    (h2 : m.index < (m.memory.length : Int) - 1) :
    m.move_left.bind TuringMachine.move_right = Except.ok m ∧
    m.move_right.bind TuringMachine.move_left = Except.ok m := by
  constructor
  · rw [move_left_ok m (by omega)]
    show TuringMachine.move_right ⟨m.memory, m.index - 1⟩ = Except.ok m
    rw [move_right_ok ⟨m.memory, m.index - 1⟩ ?hne]
    case hne =>
      show m.index - 1 ≠ (m.memory.length : Int) - 1
      omega
    have hx : m.index - 1 + 1 = m.index := by omega
    show Except.ok (⟨m.memory, m.index - 1 + 1⟩ : TuringMachine) = Except.ok m
    rw [hx]
  · rw [move_right_ok m (by omega)]
    show TuringMachine.move_left ⟨m.memory, m.index + 1⟩ = Except.ok m
    rw [move_left_ok ⟨m.memory, m.index + 1⟩ ?hne2]
    case hne2 =>
      show m.index + 1 ≠ 0
      omega
    have hx : m.index + 1 - 1 = m.index := by omega
    show Except.ok (⟨m.memory, m.index + 1 - 1⟩ : TuringMachine) = Except.ok m
    rw [hx]

/-- Witness for C5 on a 4-cell tape with head 1. -/
theorem roundtrip_spec_witness :
    ((0 : Int) < (TuringMachine.init 4 1).index ∧
      (TuringMachine.init 4 1).index <
        ((TuringMachine.init 4 1).memory.length : Int) - 1) ∧
    ((TuringMachine.init 4 1).move_left.bind TuringMachine.move_right =
        Except.ok (TuringMachine.init 4 1) ∧
      (TuringMachine.init 4 1).move_right.bind TuringMachine.move_left =
        Except.ok (TuringMachine.init 4 1)) :=
  ⟨⟨by decide, by decide⟩,
   roundtrip_spec (TuringMachine.init 4 1) (by decide) (by decide)⟩

/-- C6: writing `v` at any valid head position and then reading at that
position returns exactly `v`. -/
theorem write_read_spec (m : TuringMachine) (v : Int) (h0 : 0 ≤ m.index)
    (hlt : m.index < (m.memory.length : Int)) :
    (m.setValue v).bind TuringMachine.value = Except.ok v := by
  rw [setValue_ok m v h0 hlt]
  show TuringMachine.value ⟨m.memory.set m.index.toNat v, m.index⟩ =
    Except.ok v
  rw [value_ok ⟨m.memory.set m.index.toNat v, m.index⟩ h0 (by simpa using hlt)]
  have hk : m.index.toNat < m.memory.length := by omega
  show Except.ok ((m.memory.set m.index.toNat v).getD m.index.toNat 0) =
    Except.ok v
  rw [List.getD_eq_getElem?_getD, List.getElem?_set_eq_of_lt v hk]
  rfl

/-- Witness for C6: write 7 at head 1 of a fresh 4-cell tape, read it back. -/
theorem write_read_spec_witness :
    ((0 : Int) ≤ (TuringMachine.init 4 1).index ∧
      (TuringMachine.init 4 1).index <
        ((TuringMachine.init 4 1).memory.length : Int)) ∧
    ((TuringMachine.init 4 1).setValue 7).bind TuringMachine.value =
      Except.ok 7 :=
  ⟨⟨by decide, by decide⟩,
   write_read_spec (TuringMachine.init 4 1) 7 (by decide) (by decide)⟩

/-- C7: writing at a valid head position leaves every other position `k`
unchanged (stated for all positions `k ≠ head`, in or out of range, via the
optional lookup). -/
theorem write_frame_spec (m : TuringMachine) (v : Int) (k : Nat)
    (h0 : 0 ≤ m.index) (hlt : m.index < (m.memory.length : Int))
    (hne : (k : Int) ≠ m.index) :
    ∀ m', m.setValue v = Except.ok m' → m'.memory[k]? = m.memory[k]? := by
  intro m' hm'
  rw [setValue_ok m v h0 hlt] at hm'
  obtain rfl : (⟨m.memory.set m.index.toNat v, m.index⟩ : TuringMachine) = m' := by
    simpa using hm'
  show (m.memory.set m.index.toNat v)[k]? = m.memory[k]?
  have : m.index.toNat ≠ k := by omega
  exact List.getElem?_set_ne this

/-- Witness for C7: writing 7 at head 1 leaves position 0 unchanged. -/
theorem write_frame_spec_witness :
    (((0 : Int) ≤ (TuringMachine.init 4 1).index ∧
        (TuringMachine.init 4 1).index <
          ((TuringMachine.init 4 1).memory.length : Int)) ∧
      ((0 : Nat) : Int) ≠ (TuringMachine.init 4 1).index) ∧
    (∀ m', (TuringMachine.init 4 1).setValue 7 = Except.ok m' →
      m'.memory[0]? = (TuringMachine.init 4 1).memory[0]?) :=
  ⟨⟨⟨by decide, by decide⟩, by decide⟩,
   write_frame_spec (TuringMachine.init 4 1) 7 0 (by decide) (by decide)
     (by decide)⟩

/-- C8: on a state satisfying invariant I1, a move fails exactly when it
would take the head outside `[0, length - 1]`, every error a move raises is
an `EndOfTapeException`, and the remaining core operations (read, write)
raise no error at all. -/
theorem error_taxonomy_spec (m : TuringMachine) (h0 : 0 ≤ m.index)
    (hlt : m.index < (m.memory.length : Int)) :
    ((∃ e, m.move_left = Except.error e) ↔
      ¬ (0 ≤ m.index - 1 ∧ m.index - 1 ≤ (m.memory.length : Int) - 1)) ∧
    (∀ e, m.move_left = Except.error e →
      ∃ msg, e = PyErr.endOfTapeException msg) ∧
    ((∃ e, m.move_right = Except.error e) ↔
      ¬ (0 ≤ m.index + 1 ∧ m.index + 1 ≤ (m.memory.length : Int) - 1)) ∧
    (∀ e, m.move_right = Except.error e →
      ∃ msg, e = PyErr.endOfTapeException msg) ∧
    (∃ x, m.value = Except.ok x) ∧
    (∀ v, ∃ m', m.setValue v = Except.ok m') := by
  refine ⟨?_, ?_, ?_, ?_, ?_, ?_⟩
  · constructor
    · rintro ⟨e, he⟩
      unfold TuringMachine.move_left at he
      split at he
      · rename_i hz
        omega
      · exact absurd he (by simp)
    · intro hout
      have hz : m.index = 0 := by omega
      exact ⟨PyErr.endOfTapeException "Unable to move left, index is at 0",
        by simp [TuringMachine.move_left, hz]⟩
  · intro e he
    unfold TuringMachine.move_left at he
    split at he
    · exact ⟨_, by simpa using he.symm⟩
    · exact absurd he (by simp)
  · constructor
    · rintro ⟨e, he⟩
      unfold TuringMachine.move_right at he
      split at he
      · rename_i hz
        omega
      · exact absurd he (by simp)
    · intro hout
      have hz : m.index = (m.memory.length : Int) - 1 := by omega
      exact ⟨PyErr.endOfTapeException
          "Unable to move right, reached end of the tape",
        by simp [TuringMachine.move_right, hz]⟩
  · intro e he
    unfold TuringMachine.move_right at he
    split at he
    · exact ⟨_, by simpa using he.symm⟩
    · exact absurd he (by simp)
  · exact ⟨_, value_ok m h0 hlt⟩
  · intro v
    exact ⟨_, setValue_ok m v h0 hlt⟩

/-- Witness for C8 on a fresh 4-cell tape with head 0 (I1 holds there). -/
theorem error_taxonomy_spec_witness :
    ((0 : Int) ≤ (TuringMachine.init 4 0).index ∧
      (TuringMachine.init 4 0).index <
        ((TuringMachine.init 4 0).memory.length : Int)) ∧
    (∃ e, (TuringMachine.init 4 0).move_left = Except.error e) ∧
    (∃ x, (TuringMachine.init 4 0).value = Except.ok x) :=
  ⟨⟨by decide, by decide⟩,
   (error_taxonomy_spec (TuringMachine.init 4 0) (by decide) (by decide)).1.mpr
     (by decide),
   (error_taxonomy_spec (TuringMachine.init 4 0) (by decide)
     (by decide)).2.2.2.2.1⟩

/-- C9: on a state satisfying invariant I1, the `value` getter returns the
cell stored at the head (the head index is in range), and the indexing
error branch is unreachable.  The getter takes the state and returns only a
value, so it performs no mutation by construction. -/
theorem read_spec (m : TuringMachine) (h0 : 0 ≤ m.index)
    (hlt : m.index < (m.memory.length : Int)) :
    (∃ hk : m.index.toNat < m.memory.length,
      m.value = Except.ok (m.memory.get ⟨m.index.toNat, hk⟩)) ∧
    ∀ e, m.value ≠ Except.error e := by
  have hk : m.index.toNat < m.memory.length := by omega
  have hv := value_ok m h0 hlt
  constructor
  · refine ⟨hk, ?_⟩
    rw [hv]
    congr 1
    rw [List.getD_eq_getElem _ _ hk]
    simp
  · intro e he
    rw [hv] at he
    exact absurd he (by simp)

/-- Witness for C9: reading a fresh 4-cell tape at head 2 cannot fail and
yields the stored cell. -/
theorem read_spec_witness :
    ((0 : Int) ≤ (TuringMachine.init 4 2).index ∧
      (TuringMachine.init 4 2).index <
        ((TuringMachine.init 4 2).memory.length : Int)) ∧
    ((∃ hk : (TuringMachine.init 4 2).index.toNat <
          (TuringMachine.init 4 2).memory.length,
        (TuringMachine.init 4 2).value =
          Except.ok ((TuringMachine.init 4 2).memory.get
            ⟨(TuringMachine.init 4 2).index.toNat, hk⟩)) ∧
      ∀ e, (TuringMachine.init 4 2).value ≠ Except.error e) :=
  ⟨⟨by decide, by decide⟩,
   read_spec (TuringMachine.init 4 2) (by decide) (by decide)⟩

/-- C10: construction validates nothing — for every non-negative tape size
and every integer initial index (in range or not) it succeeds, producing
exactly `tape_size` cells and a head equal to the given index with no
clamping; in particular `init 4 7` already violates invariant I1. -/
theorem unchecked_construct_spec (tape_size : Nat) (i : Int) :
    (TuringMachine.init tape_size i).index = i ∧
    (TuringMachine.init tape_size i).memory.length = tape_size ∧
    ¬ (TuringMachine.init 4 7).I1 := by
  refine ⟨rfl, ?_, by decide⟩
  simp [TuringMachine.init]
